import Mathlib

/-!
# Verification of the siftrics/hydra Go client (hydra.go)

Shallow embedding of the hydra client library. The embedding follows
`src/hydra.go` definition by definition:

* Dynamically-typed decoded JSON values (Go `interface{}` as produced by
  `encoding/json`) are modelled by `GoValue`.
* The structures `Config`, `HydraRequest`, `HydraRequestFile`,
  `RecognizedFile`, `RecognizedFiles`, `Client` mirror the Go structs.
  Go's `map[string]interface{}` is modelled as an association list
  (Go map iteration order is unspecified; the list fixes one order).
* The accessors `RecognizedFile.Get` and `RecognizedFile.GetTable` mirror
  the Go methods, with `(value, error)` pairs embedded as
  `Except String value`; error strings reproduce the `fmt.Errorf` formats.
* The external world (file system, HTTP transport, JSON decoder) is
  modelled by a `World` record of oracles; `recognizeCfg` embeds
  `(*Client).RecognizeCfg` as a pure function of the world.  The Go
  function returns a channel on which a background goroutine pushes the
  decoded rows in order and then closes; since that producer is finite
  and the channel is closed afterwards, the channel is modelled by the
  list of rows delivered before closure, and a `nil` channel together
  with a non-nil error is the `Except.error` case.
-/

/-- A decoded JSON value as produced by Go's `encoding/json` into an
`interface{}`: a string, a number (`float64` in Go; carried here as its
source numeral, which no code under verification inspects), a boolean,
`nil`, an array (`[]interface{}`), or an object
(`map[string]interface{}`, modelled as an association list). -/
inductive GoValue where
  | str (s : String)
  | num (numeral : String)
  | boolean (b : Bool)
  | null
  | arr (xs : List GoValue)
  | obj (kvs : List (String × GoValue))

/-- Go's `%T` verb applied to a decoded JSON `interface{}` value. -/
def goTypeName : GoValue → String
  | .str _ => "string"
  | .num _ => "float64"
  | .boolean _ => "bool"
  | .null => "<nil>"
  | .arr _ => "[]interface \x7b\x7d"
  | .obj _ => "map[string]interface \x7b\x7d"

/-- Go's `%v` verb applied to a `[]string` slice: `[a b c]`. -/
def goFmtStrSlice (xs : List String) : String :=
  "[" ++ String.intercalate " " xs ++ "]"

/-- Go struct `type Config struct { DoFaster bool }` -/
structure Config where
  DoFaster : Bool
deriving DecidableEq

/-- Go struct `type HydraRequestFile struct { MimeType string; Base64File string }` -/
structure HydraRequestFile where
  MimeType : String
  Base64File : String
deriving DecidableEq

/-- Go struct `type HydraRequest struct { Files []HydraRequestFile; DoFaster bool }` -/
structure HydraRequest where
  Files : List HydraRequestFile
  DoFaster : Bool
deriving DecidableEq

/-- Go struct `type RecognizedFile struct { Error string; FileIndex int;
RecognizedText map[string]interface{}; Base64Image string }` -/
structure RecognizedFile where
  Error : String
  FileIndex : Int
  RecognizedText : List (String × GoValue)
  Base64Image : String

/-- Go struct `type RecognizedFiles struct { Rows []RecognizedFile }` -/
structure RecognizedFiles where
  Rows : List RecognizedFile

/-- Go struct `type Client struct { apiKey string }` -/
structure Client where
  apiKey : String
deriving DecidableEq

/-- Constructor `func NewClient(apiKey string) *Client` -/
def NewClient (apiKey : String) : Client := ⟨apiKey⟩

/-- The error built at hydra.go:71 and hydra.go:93:
`fmt.Errorf("No such field \"%v\" associated to the given data source. Valid fields: %v", field, fields)`
where `fields` collects the keys of `RecognizedText`. -/
def noSuchFieldMsg (field : String) (fields : List String) : String :=
  "No such field \"" ++ field ++
    "\" associated to the given data source. Valid fields: " ++
    goFmtStrSlice fields

/-- The error built at hydra.go:75:
`fmt.Errorf("The field \"%v\" is a table, not a string. Consider using the \"GetTable\" method.", field)` -/
def isTableMsg (field : String) : String :=
  "The field \"" ++ field ++
    "\" is a table, not a string. Consider using the \"GetTable\" method."

/-- The error built at hydra.go:97:
`fmt.Errorf("The field \"%v\" is a string, not a table. Consider using the \"Get\" method.", field)` -/
def isStringMsg (field : String) : String :=
  "The field \"" ++ field ++
    "\" is a string, not a table. Consider using the \"Get\" method."

/-- The error built at hydra.go:103:
`fmt.Errorf("This should never happen. Expected type map[string]interface{}. Got: %T\n", inter)` -/
def expectedMapMsg (v : GoValue) : String :=
  "This should never happen. Expected type map[string]interface \x7b\x7d. Got: " ++
    goTypeName v ++ "\n"

/-- The error built at hydra.go:109:
`fmt.Errorf("This should never happen. Expected type string. Got: %T\n", sInter)` -/
def expectedStringMsg (v : GoValue) : String :=
  "This should never happen. Expected type string. Got: " ++
    goTypeName v ++ "\n"

/-- The keys of `RecognizedText`, in the order the `for k := range` loop
at hydra.go:67/89 visits them (one fixed order in the model). -/
def fieldKeys (rf : RecognizedFile) : List String :=
  rf.RecognizedText.map Prod.fst

/-- Method `func (rf *RecognizedFile) Get(field string) (string, error)`
(hydra.go:62-78): look the field up; absent fields and non-string values
produce the errors built at hydra.go:71 and hydra.go:75. -/
def RecognizedFile.Get (rf : RecognizedFile) (field : String) :
    Except String String :=
  match rf.RecognizedText.lookup field with
  | none => .error (noSuchFieldMsg field (fieldKeys rf))
  | some (.str s) => .ok s
  | some _ => .error (isTableMsg field)

/-- A Go `for`-loop over a slice that builds one output per element and
returns at the first failing element: the common shape of the loops at
hydra.go:100, 106, 158 and 181. -/
def mapExcept (f : α → Except ε β) : List α → Except ε (List β)
  | [] => .ok []
  | x :: xs =>
    match f x with
    | .error e => .error e
    | .ok y =>
      match mapExcept f xs with
      | .error e => .error e
      | .ok ys => .ok (y :: ys)

/-- The body of the `for k, sInter := range mInter` loop at
hydra.go:106-112: every value of a table row must be a string. -/
def convEntry (kv : String × GoValue) : Except String (String × String) :=
  match kv.2 with
  | .str s => .ok (kv.1, s)
  | v => .error (expectedStringMsg v)

/-- The body of the `for i, inter := range interfaces` loop at
hydra.go:100-114: every element of a table must be a
`map[string]interface{}` whose values are all strings. -/
def convRow (v : GoValue) : Except String (List (String × String)) :=
  match v with
  | .obj kvs => mapExcept convEntry kvs
  | v => .error (expectedMapMsg v)

/-- Method `func (rf *RecognizedFile) GetTable(field string) ([]map[string]string, error)`
(hydra.go:84-116).  Row maps (`map[string]string`) are modelled as
association lists in the order the conversion loop emits them. -/
def RecognizedFile.GetTable (rf : RecognizedFile) (field : String) :
    Except String (List (List (String × String))) :=
  match rf.RecognizedText.lookup field with
  | none => .error (noSuchFieldMsg field (fieldKeys rf))
  | some (.arr interfaces) => mapExcept convRow interfaces
  | some _ => .error (isStringMsg field)

/-- The standard base64 alphabet used by Go's `base64.StdEncoding`. -/
def base64Alphabet : List Char :=
  "ABCDEFGHIJKLMNOPQRSTUVWXYZabcdefghijklmnopqrstuvwxyz0123456789+/".data

/-- The character of the standard base64 alphabet at a 6-bit index. -/
def b64Char (n : Nat) : Char := base64Alphabet.getD n 'A'

/-- Go's `base64.StdEncoding.EncodeToString` (RFC 4648 standard encoding with
padding) on a byte sequence; bytes are naturals below 256. -/
def base64Encode : List Nat → String
  | [] => ""
  | [b1] =>
      String.mk [b64Char (b1 / 4), b64Char (b1 % 4 * 16), '=', '=']
  | [b1, b2] =>
      String.mk [b64Char (b1 / 4), b64Char (b1 % 4 * 16 + b2 / 16),
        b64Char (b2 % 16 * 4), '=']
  | b1 :: b2 :: b3 :: rest =>
      String.mk [b64Char (b1 / 4), b64Char (b1 % 4 * 16 + b2 / 16),
        b64Char (b2 % 16 * 4 + b3 / 64), b64Char (b3 % 64)] ++
        base64Encode rest

/-- The error built at hydra.go:160 and hydra.go:177:
`fmt.Errorf("failed to infer MIME type from file path: %v", fp)` -/
def mimeErrMsg (fp : String) : String :=
  "failed to infer MIME type from file path: " ++ fp

/-- Go's `strings.ToLower(fp[len(fp)-n : len(fp)])`: the last `n` characters
of `fp`, lower-cased. -/
def lowerLastN (fp : String) (n : Nat) : List Char :=
  (fp.data.drop (fp.data.length - n)).map Char.toLower

/-- The MIME-inference `switch` at hydra.go:158-180, for one file path:
paths shorter than 4 characters fail; otherwise the lower-cased 4-character
suffix selects among `.bmp`, `.gif`, `.pdf`, `.png`, `.jpg`, with a
fallback for a 5-character `.jpeg` suffix; anything else fails. -/
def inferMimeType (fp : String) : Except String String :=
  if fp.data.length < 4 then .error (mimeErrMsg fp)
  else if lowerLastN fp 4 = ".bmp".data then .ok "image/bmp"
  else if lowerLastN fp 4 = ".gif".data then .ok "image/gif"
  else if lowerLastN fp 4 = ".pdf".data then .ok "application/pdf"
  else if lowerLastN fp 4 = ".png".data then .ok "image/png"
  else if lowerLastN fp 4 = ".jpg".data then .ok "image/jpg"
  else if 5 ≤ fp.data.length ∧ lowerLastN fp 5 = ".jpeg".data then
    .ok "image/jpeg"
  else .error (mimeErrMsg fp)

/-- The first loop of `RecognizeCfg` (hydra.go:158-180): infer every MIME
type, in input order, stopping at the first failure. -/
def inferAll (filePaths : List String) : Except String (List String) :=
  mapExcept inferMimeType filePaths

/-- The response to the initial HTTP request, as far as `RecognizeCfg`
inspects it: the status code, the result of `ioutil.ReadAll` on the body
(hydra.go:210, which may itself fail), and the result of running
`json.NewDecoder(resp.Body).Decode(&rfs)` on the body (hydra.go:217). -/
structure HttpResponse where
  StatusCode : Nat
  body : Except String String
  decoded : Except String RecognizedFiles

/-- The external world `RecognizeCfg` interacts with: `ioutil.ReadFile`
(file path to bytes or an I/O error) and the single HTTP POST performed
by `httpClient.Do` (hydra.go:193-201), keyed by the API key placed in the
authorization header, the data-source id in the URL, and the request
payload; `Do` may fail with a transport error. -/
structure World where
  readFile : String → Except String (List Nat)
  doRequest : String → String → HydraRequest → Except String HttpResponse

/-- The second loop of `RecognizeCfg` (hydra.go:181-187): read every file,
in input order, stopping at the first failure with the underlying I/O
error, and base64-encode each file's bytes. -/
def readAll (w : World) (filePaths : List String) :
    Except String (List String) :=
  mapExcept (fun fp =>
    match w.readFile fp with
    | .error e => .error e
    | .ok fileContents => .ok (base64Encode fileContents)) filePaths

/-- hydra.go:154-187: construct the `HydraRequest` — all MIME types first,
then all file contents, combined positionally into `sr.Files`. -/
def buildRequest (w : World) (cfg : Config) (filePaths : List String) :
    Except String HydraRequest :=
  match inferAll filePaths with
  | .error e => .error e
  | .ok mimes =>
    match readAll w filePaths with
    | .error e => .error e
    | .ok b64s =>
      .ok { Files := List.zipWith (fun m b => ⟨m, b⟩) mimes b64s,
            DoFaster := cfg.DoFaster }

/-- The error built at hydra.go:206. -/
def invalidApiKeyMsg : String :=
  "Invalid API key; Received 401 Unauthorized from initial HTTP request to the Hydra API.\n"

/-- The error built at hydra.go:208. -/
def notFoundMsg : String :=
  "Received 404 Not Found --- Invalid data source ID. (Note that the name of the data source is NOT necessarily the ID of the data source. The ID of the data source is listed on its page on siftrics.com. Spaces are usually replaced by hyphens.)\n"

/-- The error built at hydra.go:212 (non-200 status, unreadable body). -/
def non200NoBodyMsg (status : Nat) : String :=
  "Non-200 response from intial HTTP request to the Hydra API. Status of inital HTTP response: " ++
    toString status ++ ". Furthermore, failed to read body of initial HTTP response."

/-- The error built at hydra.go:214 (non-200 status, readable body). -/
def non200BodyMsg (status : Nat) (body : String) : String :=
  "Non-200 response from intial HTTP request to the Hydra API. Status of inital HTTP response: " ++
    toString status ++ ". Body of initial HTTP response:\n" ++ body

/-- The error built at hydra.go:218 (200 status, body failed to decode). -/
def decodeFailMsg (e : String) : String :=
  "This should never happen and is not your fault: failed to decode body of initial HTTP request; error: " ++ e

/-- Method `func (c *Client) RecognizeCfg(cfg Config, dataSourceId string,
filePaths ...string) (<-chan RecognizedFile, error)` (hydra.go:153-229).
The value of the `Except` is the full content of the delivery channel:
the goroutine at hydra.go:222-227 pushes exactly `rfs.Rows`, in order,
and then closes the channel, so the channel is modelled by that list.
An error models the `(nil, err)` return: no channel is created.
The status dispatch at hydra.go:205-219 is `handleResponse`; the whole
function, assembled, is `recognizeCfg` below. -/
def handleResponse (resp : HttpResponse) :
    Except String (List RecognizedFile) :=
  if resp.StatusCode = 401 then .error invalidApiKeyMsg
  else if resp.StatusCode = 404 then .error notFoundMsg
  else if resp.StatusCode ≠ 200 then
    match resp.body with
    | .error _ => .error (non200NoBodyMsg resp.StatusCode)
    | .ok body => .error (non200BodyMsg resp.StatusCode body)
  else
    match resp.decoded with
    | .error e => .error (decodeFailMsg e)
    | .ok rfs => .ok rfs.Rows

/-- hydra.go:153-229, assembled: build the request, perform the single
HTTP exchange, dispatch on the response. -/
def recognizeCfg (w : World) (c : Client) (cfg : Config)
    (dataSourceId : String) (filePaths : List String) :
    Except String (List RecognizedFile) :=
  match buildRequest w cfg filePaths with
  | .error e => .error e
  | .ok sr =>
    match w.doRequest c.apiKey dataSourceId sr with
    | .error e => .error e
    | .ok resp => handleResponse resp

/-- Method `func (c *Client) Recognize(dataSourceId string, filePaths ...string)`
(hydra.go:131-139): `RecognizeCfg` with the default configuration. -/
def recognize (w : World) (c : Client) (dataSourceId : String)
    (filePaths : List String) : Except String (List RecognizedFile) :=
  recognizeCfg w c { DoFaster := false } dataSourceId filePaths

/-- A sample table value: the spec's
`[{"qty":"2","sku":"A1"}, {"qty":"1","sku":"B2"}]`. -/
def sampleItems : List GoValue :=
  [.obj [("qty", .str "2"), ("sku", .str "A1")],
   .obj [("qty", .str "1"), ("sku", .str "B2")]]

/-- A sample decoded result row with a scalar field `name` and a tabular
field `items`. -/
def sampleRow : RecognizedFile :=
  { Error := ""
    FileIndex := 0
    RecognizedText :=
      [("name", .str "Acme Corp"), ("items", .arr sampleItems)]
    Base64Image := "" }

/-- C4: for every row and label, `Get` returns the scalar string with no
error when the label maps to a string; it fails when the label is absent,
with the error that enumerates the valid labels (`noSuchFieldMsg`, built
from all keys of `RecognizedText`); and it fails when the label's value
is a table, with the error naming `GetTable` as the correct accessor
(`isTableMsg`). -/
theorem Get_spec (rf : RecognizedFile) (field : String) :
    (∀ s, rf.RecognizedText.lookup field = some (.str s) →
      rf.Get field = .ok s) ∧
    (rf.RecognizedText.lookup field = none →
      rf.Get field = .error (noSuchFieldMsg field (fieldKeys rf))) ∧
    (∀ t, rf.RecognizedText.lookup field = some (.arr t) →
      rf.Get field = .error (isTableMsg field)) := by
  refine ⟨fun s h => ?_, fun h => ?_, fun t h => ?_⟩ <;>
    simp [RecognizedFile.Get, h]

/-- Witness for C4 on `sampleRow`. -/
theorem Get_spec_witness :
    sampleRow.Get "name" = .ok "Acme Corp" ∧
    sampleRow.Get "absent" =
      .error (noSuchFieldMsg "absent" ["name", "items"]) ∧
    sampleRow.Get "items" = .error (isTableMsg "items") :=
  ⟨(Get_spec sampleRow "name").1 "Acme Corp" rfl,
   (Get_spec sampleRow "absent").2.1 rfl,
   (Get_spec sampleRow "items").2.2 sampleItems rfl⟩

theorem mapExcept_ok_mem {α β ε : Type} {f : α → Except ε β} :
    ∀ {l : List α} {ys : List β}, mapExcept f l = .ok ys →
      ∀ x ∈ l, ∃ y, f x = .ok y := by
  intro l
  induction l with
  | nil => intro ys _ x hx; cases hx
  | cons a l ih =>
    intro ys h x hx
    cases hfa : f a with
    | error e => rw [mapExcept, hfa] at h; cases h
    | ok y =>
      cases hl : mapExcept f l with
      | error e => rw [mapExcept, hfa, hl] at h; cases h
      | ok ys' =>
        rcases List.mem_cons.mp hx with rfl | hx'
        · exact ⟨y, hfa⟩
        · exact ih hl x hx'

theorem mapExcept_isError_of_mem {α β ε : Type} {f : α → Except ε β}
    {l : List α} {x : α} (hx : x ∈ l) (hbad : ∀ y, f x ≠ .ok y) :
    ∃ e, mapExcept f l = .error e := by
  cases h : mapExcept f l with
  | error e => exact ⟨e, rfl⟩
  | ok ys =>
    obtain ⟨y, hy⟩ := mapExcept_ok_mem h x hx
    exact absurd hy (hbad y)

theorem mapExcept_error_src {α β ε : Type} {f : α → Except ε β} :
    ∀ {l : List α} {e : ε}, mapExcept f l = .error e →
      ∃ x ∈ l, f x = .error e := by
  intro l
  induction l with
  | nil => intro e h; cases h
  | cons a l ih =>
    intro e h
    cases hfa : f a with
    | error e' =>
      rw [mapExcept, hfa] at h
      cases h
      exact ⟨a, List.mem_cons_self a l, hfa⟩
    | ok y =>
      cases hl : mapExcept f l with
      | error e' =>
        rw [mapExcept, hfa, hl] at h
        cases h
        obtain ⟨x, hx, hfx⟩ := ih hl
        exact ⟨x, List.mem_cons_of_mem a hx, hfx⟩
      | ok ys => rw [mapExcept, hfa, hl] at h; cases h

theorem mapExcept_length {α β ε : Type} {f : α → Except ε β} :
    ∀ {l : List α} {ys : List β}, mapExcept f l = .ok ys →
      ys.length = l.length := by
  intro l
  induction l with
  | nil => intro ys h; rw [mapExcept] at h; cases h; rfl
  | cons a l ih =>
    intro ys h
    cases hfa : f a with
    | error e => rw [mapExcept, hfa] at h; cases h
    | ok y =>
      cases hl : mapExcept f l with
      | error e => rw [mapExcept, hfa, hl] at h; cases h
      | ok ys' =>
        rw [mapExcept, hfa, hl] at h
        cases h
        simp [ih hl]

theorem mapExcept_ok_getElem {α β ε : Type} {f : α → Except ε β} :
    ∀ {l : List α} {ys : List β}, mapExcept f l = .ok ys →
      ∀ i (hi : i < l.length) (hi' : i < ys.length),
        f (l.get ⟨i, hi⟩) = .ok (ys.get ⟨i, hi'⟩) := by
  intro l
  induction l with
  | nil => intro ys _ i hi; cases hi
  | cons a l ih =>
    intro ys h i hi hi'
    cases hfa : f a with
    | error e => rw [mapExcept, hfa] at h; cases h
    | ok y =>
      cases hl : mapExcept f l with
      | error e => rw [mapExcept, hfa, hl] at h; cases h
      | ok ys' =>
        rw [mapExcept, hfa, hl] at h
        cases h
        cases i with
        | zero => exact hfa
        | succ j =>
          exact ih hl j (Nat.lt_of_succ_lt_succ hi) (Nat.lt_of_succ_lt_succ hi')

theorem mapExcept_congr {α β ε : Type} {f g : α → Except ε β} :
    ∀ {l : List α}, (∀ x ∈ l, f x = g x) →
      mapExcept f l = mapExcept g l := by
  intro l
  induction l with
  | nil => intro _; rfl
  | cons a l ih =>
    intro h
    rw [mapExcept, mapExcept, h a (List.mem_cons_self a l),
      ih fun x hx => h x (List.mem_cons_of_mem a hx)]

/-- The decoded-JSON shape of a table of string-keyed string maps: the
shape `GetTable` converts without error. -/
def tableVal (rows : List (List (String × String))) : GoValue :=
  .arr (rows.map fun row => .obj (row.map fun kv => (kv.1, GoValue.str kv.2)))

/-- An error string of the internal-inconsistency kind: one of the two
`This should never happen.` messages of hydra.go:103 and hydra.go:109. -/
def isInternalMsg (e : String) : Prop :=
  (∃ v, e = expectedMapMsg v) ∨ (∃ v, e = expectedStringMsg v)

theorem mapExcept_convEntry_strs (row : List (String × String)) :
    mapExcept convEntry (row.map fun kv => (kv.1, GoValue.str kv.2)) =
      .ok row := by
  induction row with
  | nil => rfl
  | cons kv row ih => simp [mapExcept, convEntry, ih]

theorem convRow_strRow (row : List (String × String)) :
    convRow (.obj (row.map fun kv => (kv.1, GoValue.str kv.2))) = .ok row := by
  rw [convRow]
  exact mapExcept_convEntry_strs row

theorem mapExcept_convRow_table (rows : List (List (String × String))) :
    mapExcept convRow
      (rows.map fun row => GoValue.obj (row.map fun kv => (kv.1, GoValue.str kv.2))) =
      .ok rows := by
  induction rows with
  | nil => rfl
  | cons row rows ih => simp [mapExcept, convRow_strRow, ih]

theorem convEntry_error_shape {kv : String × GoValue} {e : String}
    (h : convEntry kv = .error e) : ∃ v, e = expectedStringMsg v := by
  obtain ⟨k, v⟩ := kv
  cases v <;> simp [convEntry] at h <;> exact ⟨_, h.symm⟩

theorem convRow_error_shape {v : GoValue} {e : String}
    (h : convRow v = .error e) : isInternalMsg e := by
  cases v with
  | obj kvs =>
    rw [convRow] at h
    obtain ⟨kv, _, hkv⟩ := mapExcept_error_src h
    exact .inr (convEntry_error_shape hkv)
  | str s => simp [convRow] at h; exact .inl ⟨_, h.symm⟩
  | num q => simp [convRow] at h; exact .inl ⟨_, h.symm⟩
  | boolean b => simp [convRow] at h; exact .inl ⟨_, h.symm⟩
  | null => simp [convRow] at h; exact .inl ⟨_, h.symm⟩
  | arr xs => simp [convRow] at h; exact .inl ⟨_, h.symm⟩

theorem convRow_not_ok_of_not_obj {v : GoValue}
    (hbad : ∀ kvs, v ≠ .obj kvs) : ∀ r, convRow v ≠ .ok r := by
  cases v with
  | obj kvs => exact absurd rfl (hbad kvs)
  | str s => intro r h; simp [convRow] at h
  | num q => intro r h; simp [convRow] at h
  | boolean b => intro r h; simp [convRow] at h
  | null => intro r h; simp [convRow] at h
  | arr xs => intro r h; simp [convRow] at h

/-- C5: for every row and label, `GetTable` returns the table's rows in
original order with keys and string values preserved when the label maps
to a table of string-keyed string maps (`tableVal`); it fails when the
label is absent, with the error enumerating the valid labels; it fails
when the value is a scalar string, with the error naming `Get`; and a
table element that is not a row-map, or a nested row value that is not a
string, makes it fail with one of the two internal
`This should never happen.` errors rather than crash. -/
theorem GetTable_spec (rf : RecognizedFile) (field : String) :
    (∀ rows, rf.RecognizedText.lookup field = some (tableVal rows) →
      rf.GetTable field = .ok rows) ∧
    (rf.RecognizedText.lookup field = none →
      rf.GetTable field = .error (noSuchFieldMsg field (fieldKeys rf))) ∧
    (∀ s, rf.RecognizedText.lookup field = some (.str s) →
      rf.GetTable field = .error (isStringMsg field)) ∧
    (∀ xs v, rf.RecognizedText.lookup field = some (.arr xs) → v ∈ xs →
      (∀ kvs, v ≠ .obj kvs) →
      ∃ e, rf.GetTable field = .error e ∧ isInternalMsg e) ∧
    (∀ xs kvs kv, rf.RecognizedText.lookup field = some (.arr xs) →
      GoValue.obj kvs ∈ xs → kv ∈ kvs → (∀ s, kv.2 ≠ .str s) →
      ∃ e, rf.GetTable field = .error e ∧ isInternalMsg e) := by
  refine ⟨fun rows h => ?_, fun h => ?_, fun s h => ?_,
    fun xs v h hv hbad => ?_, fun xs kvs kv h hkvs hkv hbad => ?_⟩
  · simp [RecognizedFile.GetTable, h, tableVal, mapExcept_convRow_table]
  · simp [RecognizedFile.GetTable, h]
  · simp [RecognizedFile.GetTable, h]
  · obtain ⟨e, he⟩ :=
      mapExcept_isError_of_mem hv
        (fun r hr => convRow_not_ok_of_not_obj hbad r hr)
    refine ⟨e, by simp [RecognizedFile.GetTable, h, he], ?_⟩
    obtain ⟨x, _, hx⟩ := mapExcept_error_src he
    exact convRow_error_shape hx
  · have hentry : ∀ y, convEntry kv ≠ .ok y := by
      obtain ⟨k, v⟩ := kv
      cases v with
      | str s => exact absurd rfl (hbad s)
      | num q => intro y hy; simp [convEntry] at hy
      | boolean b => intro y hy; simp [convEntry] at hy
      | null => intro y hy; simp [convEntry] at hy
      | arr xs' => intro y hy; simp [convEntry] at hy
      | obj kvs' => intro y hy; simp [convEntry] at hy
    obtain ⟨e', he'⟩ := mapExcept_isError_of_mem hkv hentry
    have hrow : ∀ r, convRow (GoValue.obj kvs) ≠ .ok r := by
      intro r hr
      rw [convRow, he'] at hr
      cases hr
    obtain ⟨e, he⟩ := mapExcept_isError_of_mem hkvs hrow
    refine ⟨e, by simp [RecognizedFile.GetTable, h, he], ?_⟩
    obtain ⟨x, _, hx⟩ := mapExcept_error_src he
    exact convRow_error_shape hx

/-- A decoded result row whose `items` field holds a table with a
non-map element. -/
def badElemRow : RecognizedFile :=
  { Error := ""
    FileIndex := 0
    RecognizedText := [("items", .arr [.num "3"])]
    Base64Image := "" }

/-- Witness for C5 on `sampleRow` and `badElemRow`. -/
theorem GetTable_spec_witness :
    sampleRow.GetTable "items" =
      .ok [[("qty", "2"), ("sku", "A1")], [("qty", "1"), ("sku", "B2")]] ∧
    sampleRow.GetTable "absent" =
      .error (noSuchFieldMsg "absent" ["name", "items"]) ∧
    sampleRow.GetTable "name" = .error (isStringMsg "name") ∧
    (∃ e, badElemRow.GetTable "items" = .error e ∧ isInternalMsg e) :=
  ⟨(GetTable_spec sampleRow "items").1
      [[("qty", "2"), ("sku", "A1")], [("qty", "1"), ("sku", "B2")]] rfl,
   (GetTable_spec sampleRow "absent").2.1 rfl,
   (GetTable_spec sampleRow "name").2.2.1 "Acme Corp" rfl,
   (GetTable_spec badElemRow "items").2.2.2.1 [.num "3"] (.num "3") rfl
     (List.mem_cons_self _ _) (fun _ h => GoValue.noConfusion h)⟩

/-- Predicate stating `fp` ends, case-insensitively, with `ext` (an already-lower-case
extension): `ext` is a suffix of the lower-cased characters of `fp`. -/
def endsWithCI (fp ext : String) : Prop :=
  ext.data <:+ fp.data.map Char.toLower

instance (fp ext : String) : Decidable (endsWithCI fp ext) :=
  inferInstanceAs (Decidable (ext.data <:+ fp.data.map Char.toLower))

/-- The file extensions `RecognizeCfg` supports. -/
def supportedExts : List String :=
  [".bmp", ".gif", ".pdf", ".png", ".jpg", ".jpeg"]

theorem lowerLastN_of_suffix {fp : String} {e : List Char}
    (h : e <:+ fp.data.map Char.toLower) :
    lowerLastN fp e.length = e ∧ e.length ≤ fp.data.length := by
  obtain ⟨t, ht⟩ := h
  have hlen : t.length + e.length = fp.data.length := by
    have h1 := congrArg List.length ht
    simpa using h1
  have hdrop : (fp.data.map Char.toLower).drop t.length = e := by
    rw [← ht]
    exact List.drop_left t e
  refine ⟨?_, by omega⟩
  unfold lowerLastN
  rw [List.map_drop]
  have h2 : fp.data.length - e.length = t.length := by omega
  rw [h2, hdrop]

theorem lowerLastN_of_suffix_len {fp : String} {e : List Char} {n : Nat}
    (hlen : e.length = n) (h : e <:+ fp.data.map Char.toLower) :
    lowerLastN fp n = e ∧ n ≤ fp.data.length := by
  subst hlen
  exact lowerLastN_of_suffix h

theorem endsWithCI_of_lowerLastN {fp ext : String}
    (h : lowerLastN fp ext.data.length = ext.data) : endsWithCI fp ext := by
  unfold endsWithCI
  rw [← h]
  unfold lowerLastN
  rw [List.map_drop]
  exact List.drop_suffix _ _

theorem inferMimeType_error_shape {fp : String} {e : String}
    (h : inferMimeType fp = .error e) : e = mimeErrMsg fp := by
  rw [inferMimeType] at h
  split_ifs at h <;> cases h <;> rfl

/-- C2: MIME inference maps each supported extension (case-insensitively)
to its fixed MIME type; it rejects any path shorter than 4 characters or
ending in no supported extension, with the error naming the path; and a
rejected path anywhere in the batch makes `RecognizeCfg` fail with the
`failed to infer MIME type` error naming an offending path, returning no
channel. -/
theorem inferMimeType_spec :
    (∀ fp, endsWithCI fp ".bmp" → inferMimeType fp = .ok "image/bmp") ∧
    (∀ fp, endsWithCI fp ".gif" → inferMimeType fp = .ok "image/gif") ∧
    (∀ fp, endsWithCI fp ".pdf" → inferMimeType fp = .ok "application/pdf") ∧
    (∀ fp, endsWithCI fp ".png" → inferMimeType fp = .ok "image/png") ∧
    (∀ fp, endsWithCI fp ".jpg" → inferMimeType fp = .ok "image/jpg") ∧
    (∀ fp, endsWithCI fp ".jpeg" → inferMimeType fp = .ok "image/jpeg") ∧
    (∀ fp, fp.data.length < 4 ∨ (∀ ext ∈ supportedExts, ¬ endsWithCI fp ext) →
      inferMimeType fp = .error (mimeErrMsg fp)) ∧
    (∀ w c cfg ds fps fp, fp ∈ fps →
      inferMimeType fp = .error (mimeErrMsg fp) →
      ∃ fp', fp' ∈ fps ∧ inferMimeType fp' = .error (mimeErrMsg fp') ∧
        recognizeCfg w c cfg ds fps = .error (mimeErrMsg fp')) := by
  refine ⟨fun fp h => ?_, fun fp h => ?_, fun fp h => ?_, fun fp h => ?_,
    fun fp h => ?_, fun fp h => ?_, fun fp h => ?_,
    fun w c cfg ds fps fp hmem herr => ?_⟩
  · obtain ⟨h4, hlen⟩ :=
      lowerLastN_of_suffix_len (by decide : ".bmp".data.length = 4) h
    rw [inferMimeType, if_neg (by omega : ¬ fp.data.length < 4), if_pos h4]
  · obtain ⟨h4, hlen⟩ :=
      lowerLastN_of_suffix_len (by decide : ".gif".data.length = 4) h
    rw [inferMimeType, if_neg (by omega : ¬ fp.data.length < 4),
      if_neg (by rw [h4]; decide), if_pos h4]
  · obtain ⟨h4, hlen⟩ :=
      lowerLastN_of_suffix_len (by decide : ".pdf".data.length = 4) h
    rw [inferMimeType, if_neg (by omega : ¬ fp.data.length < 4),
      if_neg (by rw [h4]; decide), if_neg (by rw [h4]; decide), if_pos h4]
  · obtain ⟨h4, hlen⟩ :=
      lowerLastN_of_suffix_len (by decide : ".png".data.length = 4) h
    rw [inferMimeType, if_neg (by omega : ¬ fp.data.length < 4),
      if_neg (by rw [h4]; decide), if_neg (by rw [h4]; decide),
      if_neg (by rw [h4]; decide), if_pos h4]
  · obtain ⟨h4, hlen⟩ :=
      lowerLastN_of_suffix_len (by decide : ".jpg".data.length = 4) h
    rw [inferMimeType, if_neg (by omega : ¬ fp.data.length < 4),
      if_neg (by rw [h4]; decide), if_neg (by rw [h4]; decide),
      if_neg (by rw [h4]; decide), if_neg (by rw [h4]; decide), if_pos h4]
  · obtain ⟨h5, hlen5⟩ :=
      lowerLastN_of_suffix_len (by decide : ".jpeg".data.length = 5) h
    have h4 : lowerLastN fp 4 = "jpeg".data := by
      have hsub : "jpeg".data <:+ fp.data.map Char.toLower :=
        List.IsSuffix.trans ⟨['.'], rfl⟩ h
      exact (lowerLastN_of_suffix_len (by decide : "jpeg".data.length = 4) hsub).1
    rw [inferMimeType, if_neg (by omega : ¬ fp.data.length < 4),
      if_neg (by rw [h4]; decide), if_neg (by rw [h4]; decide),
      if_neg (by rw [h4]; decide), if_neg (by rw [h4]; decide),
      if_neg (by rw [h4]; decide),
      if_pos ⟨hlen5, h5⟩]
  · rcases h with hlt | hno
    · rw [inferMimeType, if_pos hlt]
    · have hb : ∀ ext : String, ext ∈ supportedExts →
          lowerLastN fp ext.data.length ≠ ext.data := by
        intro ext hext hcontra
        exact hno ext hext (endsWithCI_of_lowerLastN hcontra)
      rw [inferMimeType]
      split_ifs with h1 h2 h3 h4 h5 h6 h7
      · rfl
      · exact absurd h2 (hb ".bmp" (by decide))
      · exact absurd h3 (hb ".gif" (by decide))
      · exact absurd h4 (hb ".pdf" (by decide))
      · exact absurd h5 (hb ".png" (by decide))
      · exact absurd h6 (hb ".jpg" (by decide))
      · exact absurd h7.2 (hb ".jpeg" (by decide))
      · rfl
  · have hbad : ∀ y, inferMimeType fp ≠ .ok y := by
      intro y hy
      rw [herr] at hy
      cases hy
    obtain ⟨e', he'⟩ := mapExcept_isError_of_mem hmem hbad
    obtain ⟨fp', hfp', herr'⟩ := mapExcept_error_src he'
    have hshape := inferMimeType_error_shape herr'
    refine ⟨fp', hfp', by rw [herr', hshape], ?_⟩
    rw [recognizeCfg, buildRequest, inferAll, he', hshape]

/-- A concrete world for witnesses: every file reads as the bytes of
`foo`; the HTTP exchange returns status 200 with `sampleRow` decoded. -/
def sampleWorld : World :=
  { readFile := fun _ => .ok [102, 111, 111]
    doRequest := fun _ _ _ => .ok
      { StatusCode := 200
        body := .ok ""
        decoded := .ok ⟨[sampleRow]⟩ } }

/-- Witness for C2. -/
theorem inferMimeType_spec_witness :
    inferMimeType "scan.BMP" = .ok "image/bmp" ∧
    inferMimeType "ab" = .error (mimeErrMsg "ab") ∧
    inferMimeType "notes.txt" = .error (mimeErrMsg "notes.txt") ∧
    (∃ fp', fp' ∈ ["a.png", "notes.txt"] ∧
      inferMimeType fp' = .error (mimeErrMsg fp') ∧
      recognizeCfg sampleWorld (NewClient "key") ⟨false⟩ "ds"
        ["a.png", "notes.txt"] = .error (mimeErrMsg fp')) :=
  ⟨inferMimeType_spec.1 "scan.BMP" (by decide),
   inferMimeType_spec.2.2.2.2.2.2.1 "ab" (.inl (by decide)),
   inferMimeType_spec.2.2.2.2.2.2.1 "notes.txt" (.inr (by decide)),
   inferMimeType_spec.2.2.2.2.2.2.2 sampleWorld (NewClient "key") ⟨false⟩ "ds"
     ["a.png", "notes.txt"] "notes.txt" (by decide) rfl⟩

theorem readAll_entry_shape (w : World) {fp : String} {e : String}
    (h : (match w.readFile fp with
          | .error e => .error e
          | .ok fileContents =>
              .ok (base64Encode fileContents) : Except String String) = .error e) :
    w.readFile fp = .error e := by
  cases hr : w.readFile fp with
  | error e' => rw [hr] at h; cases h; rfl
  | ok bs => rw [hr] at h; cases h

/-- C3: whenever `buildRequest` succeeds it builds one `HydraRequestFile`
per input path, in input order, the `i`-th entry carrying the MIME type
inferred from the `i`-th path and the standard base64 encoding of the
`i`-th file's bytes; and when the MIME pass succeeds but some file read
fails, the whole call fails with exactly the underlying I/O error of a
failing file, for every possible HTTP transport — i.e. before any network
activity. -/
theorem buildRequest_spec :
    (∀ (w : World) cfg fps sr, buildRequest w cfg fps = .ok sr →
      sr.Files.length = fps.length ∧
      ∀ i (hi : i < fps.length) (hi' : i < sr.Files.length) bs,
        w.readFile (fps.get ⟨i, hi⟩) = .ok bs →
        (sr.Files.get ⟨i, hi'⟩).Base64File = base64Encode bs ∧
        inferMimeType (fps.get ⟨i, hi⟩) = .ok (sr.Files.get ⟨i, hi'⟩).MimeType) ∧
    (∀ (w : World) cfg fps mimes e, inferAll fps = .ok mimes →
      readAll w fps = .error e →
      (∃ fp, fp ∈ fps ∧ w.readFile fp = .error e) ∧
      ∀ c d ds,
        recognizeCfg { readFile := w.readFile, doRequest := d } c cfg ds fps =
          .error e) := by
  constructor
  · intro w cfg fps sr h
    rw [buildRequest] at h
    cases hm : inferAll fps with
    | error e => rw [hm] at h; cases h
    | ok mimes =>
      cases hr : readAll w fps with
      | error e => rw [hm, hr] at h; cases h
      | ok b64s =>
        rw [hm, hr] at h
        cases h
        have hml : mimes.length = fps.length := mapExcept_length hm
        have hrl : b64s.length = fps.length := mapExcept_length hr
        have hzl : (List.zipWith
            (fun m b => (⟨m, b⟩ : HydraRequestFile)) mimes b64s).length =
            fps.length := by
          rw [List.length_zipWith, hml, hrl, Nat.min_self]
        refine ⟨hzl, ?_⟩
        intro i hi hi' bs hbs
        have him : i < mimes.length := by omega
        have hib : i < b64s.length := by omega
        have hz : (List.zipWith
            (fun m b => (⟨m, b⟩ : HydraRequestFile)) mimes b64s).get ⟨i, hi'⟩ =
            ⟨mimes.get ⟨i, him⟩, b64s.get ⟨i, hib⟩⟩ := by
          simp [List.get_eq_getElem, List.getElem_zipWith]
        have hmime := mapExcept_ok_getElem hm i hi him
        have hb64 := mapExcept_ok_getElem hr i hi hib
        rw [hbs] at hb64
        have hb64' : b64s.get ⟨i, hib⟩ = base64Encode bs :=
          (Except.ok.inj hb64).symm
        constructor
        · rw [hz, hb64']
        · rw [hz, hmime]
  · intro w cfg fps mimes e hm hr
    obtain ⟨fp, hfp, hsrc⟩ := mapExcept_error_src hr
    refine ⟨⟨fp, hfp, readAll_entry_shape w hsrc⟩, ?_⟩
    intro c d ds
    have hr' : readAll { readFile := w.readFile, doRequest := d } fps =
        .error e := hr
    rw [recognizeCfg, buildRequest, hm, hr']

/-- Witness for C3, on `sampleWorld` / `failReadWorld`. -/
def failReadWorld : World :=
  { readFile := fun fp =>
      if fp = "missing.png" then
        .error "open missing.png: no such file or directory"
      else .ok [102, 111, 111]
    doRequest := fun _ _ _ => .ok
      { StatusCode := 200, body := .ok "", decoded := .ok ⟨[]⟩ } }

/-- Witness for C3: a concrete one-file batch and a concrete failing
read. -/
theorem buildRequest_spec_witness :
    ((⟨[⟨"image/png", "Zm9v"⟩], false⟩ : HydraRequest).Files.length =
      (["a.png"] : List String).length ∧
      (⟨"image/png", "Zm9v"⟩ : HydraRequestFile).Base64File =
        base64Encode [102, 111, 111] ∧
      inferMimeType "a.png" = .ok "image/png") ∧
    (∃ fp, fp ∈ ["a.png", "missing.png"] ∧
      failReadWorld.readFile fp =
        .error "open missing.png: no such file or directory") ∧
    recognizeCfg
        { readFile := failReadWorld.readFile
          doRequest := sampleWorld.doRequest }
        (NewClient "key") ⟨false⟩ "ds" ["a.png", "missing.png"] =
      .error "open missing.png: no such file or directory" := by
  have h1 := buildRequest_spec.1 sampleWorld ⟨false⟩ ["a.png"]
    ⟨[⟨"image/png", "Zm9v"⟩], false⟩ rfl
  have h2 := buildRequest_spec.2 failReadWorld ⟨false⟩ ["a.png", "missing.png"]
    ["image/png", "image/png"] "open missing.png: no such file or directory"
    rfl rfl
  exact ⟨⟨h1.1, (h1.2 0 (by decide) (by decide) [102, 111, 111] rfl).1,
      ((h1.2 0 (by decide) (by decide) [102, 111, 111] rfl).2).symm ▸ rfl⟩,
    h2.1, h2.2 (NewClient "key") sampleWorld.doRequest "ds"⟩

/-- C9: request construction is deterministic — two calls over the same
ordered file paths whose reads yield identical bytes construct identical
`HydraRequestFile` entries (MIME type and base64 content), whatever the
configuration or the rest of the world. -/
theorem buildRequest_deterministic :
    ∀ (w₁ w₂ : World) cfg₁ cfg₂ fps sr₁ sr₂,
      (∀ fp ∈ fps, w₁.readFile fp = w₂.readFile fp) →
      buildRequest w₁ cfg₁ fps = .ok sr₁ →
      buildRequest w₂ cfg₂ fps = .ok sr₂ →
      sr₁.Files = sr₂.Files := by
  intro w₁ w₂ cfg₁ cfg₂ fps sr₁ sr₂ h h₁ h₂
  have hra : readAll w₁ fps = readAll w₂ fps := by
    unfold readAll
    exact mapExcept_congr fun fp hfp => by rw [h fp hfp]
  rw [buildRequest] at h₁ h₂
  cases hm : inferAll fps with
  | error e => rw [hm] at h₁; cases h₁
  | ok mimes =>
    cases hr : readAll w₁ fps with
    | error e => rw [hm, hr] at h₁; cases h₁
    | ok b64s =>
      rw [hm, hr] at h₁
      rw [hm, ← hra, hr] at h₂
      cases h₁
      cases h₂
      rfl

/-- A world identical to `sampleWorld` on the file system but whose HTTP
exchange returns 401 Unauthorized. -/
def sampleWorld401 : World :=
  { readFile := fun _ => .ok [102, 111, 111]
    doRequest := fun _ _ _ => .ok
      { StatusCode := 401, body := .ok "", decoded := .error "no body" } }

/-- Witness for C9: two calls differing in configuration and transport,
reading identical bytes, build equal `Files`. -/
theorem buildRequest_deterministic_witness :
    (⟨[⟨"image/png", "Zm9v"⟩], false⟩ : HydraRequest).Files =
      (⟨[⟨"image/png", "Zm9v"⟩], true⟩ : HydraRequest).Files :=
  buildRequest_deterministic sampleWorld sampleWorld401 ⟨false⟩ ⟨true⟩
    ["a.png"] ⟨[⟨"image/png", "Zm9v"⟩], false⟩ ⟨[⟨"image/png", "Zm9v"⟩], true⟩
    (fun _ _ => rfl) rfl rfl

/-- C1: for every decoded 200 response, the delivery channel (modelled as
the list of rows delivered before the channel closes) carries exactly the
decoded `Rows`, in the order received from the service; closure after the
last row and the absence of further rows are inherent in the list model
(hydra.go:221-228). -/
theorem recognizeCfg_delivers_rows (w : World) (c : Client) (cfg : Config)
    (ds : String) (fps : List String) (sr : HydraRequest)
    (resp : HttpResponse) (rfs : RecognizedFiles)
    (hb : buildRequest w cfg fps = .ok sr)
    (hd : w.doRequest c.apiKey ds sr = .ok resp)
    (hs : resp.StatusCode = 200)
    (hdec : resp.decoded = .ok rfs) :
    recognizeCfg w c cfg ds fps = .ok rfs.Rows := by
  simp [recognizeCfg, hb, hd, handleResponse, hs, hdec]

/-- Witness for C1 on `sampleWorld`: one decoded row, delivered alone. -/
theorem recognizeCfg_delivers_rows_witness :
    recognizeCfg sampleWorld (NewClient "key") ⟨false⟩ "ds" ["a.png"] =
      .ok [sampleRow] :=
  recognizeCfg_delivers_rows sampleWorld (NewClient "key") ⟨false⟩ "ds"
    ["a.png"] ⟨[⟨"image/png", "Zm9v"⟩], false⟩
    { StatusCode := 200, body := .ok "", decoded := .ok ⟨[sampleRow]⟩ }
    ⟨[sampleRow]⟩ rfl rfl rfl rfl

/-- A decoded row whose `FileIndex` is 7, although only one file was
submitted: nothing in `RecognizeCfg` checks the index. -/
def outOfRangeRow : RecognizedFile :=
  { Error := "", FileIndex := 7, RecognizedText := [], Base64Image := "" }

/-- A world whose (well-formed) 200 response carries `outOfRangeRow`. -/
def outOfRangeWorld : World :=
  { readFile := fun _ => .ok [102, 111, 111]
    doRequest := fun _ _ _ => .ok
      { StatusCode := 200, body := .ok "", decoded := .ok ⟨[outOfRangeRow]⟩ } }

/-- Counterexample to C6 as stated: for a call with one input path, the
channel delivers a row whose `FileIndex` is 7, not in `[0, 1)` — the
client forwards whatever index the decoded response carried. -/
theorem recognizeCfg_fileIndex_cex :
    recognizeCfg outOfRangeWorld (NewClient "key") ⟨false⟩ "ds" ["a.png"] =
      .ok [outOfRangeRow] ∧
    ¬ (0 ≤ outOfRangeRow.FileIndex ∧
        outOfRangeRow.FileIndex <
          ((["a.png"] : List String).length : Int)) :=
  ⟨rfl, by decide⟩

/-- C6 (amended): every row delivered on the channel comes verbatim from
the decoded `ResultSet`, so whenever every decoded row's `FileIndex` lies
in `[0, N)` for the `N` input paths — the service-side invariant — so
does the `FileIndex` of every delivered row. -/
theorem recognizeCfg_fileIndex_inRange (w : World) (c : Client)
    (cfg : Config) (ds : String) (fps : List String) (sr : HydraRequest)
    (resp : HttpResponse) (rfs : RecognizedFiles)
    (out : List RecognizedFile)
    (hb : buildRequest w cfg fps = .ok sr)
    (hd : w.doRequest c.apiKey ds sr = .ok resp)
    (hs : resp.StatusCode = 200)
    (hdec : resp.decoded = .ok rfs)
    (hinv : ∀ r ∈ rfs.Rows,
      0 ≤ r.FileIndex ∧ r.FileIndex < (fps.length : Int))
    (hout : recognizeCfg w c cfg ds fps = .ok out) :
    ∀ r ∈ out, 0 ≤ r.FileIndex ∧ r.FileIndex < (fps.length : Int) := by
  have hrun : recognizeCfg w c cfg ds fps = .ok rfs.Rows := by
    simp [recognizeCfg, hb, hd, handleResponse, hs, hdec]
  rw [hrun] at hout
  obtain rfl := Except.ok.inj hout
  exact hinv

/-- Witness for the amended C6 on `sampleWorld` (one path, row index 0). -/
theorem recognizeCfg_fileIndex_inRange_witness :
    0 ≤ sampleRow.FileIndex ∧
      sampleRow.FileIndex < ((["a.png"] : List String).length : Int) :=
  recognizeCfg_fileIndex_inRange sampleWorld (NewClient "key") ⟨false⟩ "ds"
    ["a.png"] ⟨[⟨"image/png", "Zm9v"⟩], false⟩
    { StatusCode := 200, body := .ok "", decoded := .ok ⟨[sampleRow]⟩ }
    ⟨[sampleRow]⟩ [sampleRow] rfl rfl rfl rfl (by decide) rfl
    sampleRow (List.mem_cons_self _ _)

/-- C7: a 401 on the initial HTTP exchange fails the call with the
`Invalid API key` authentication error of hydra.go:206; the `Except.error`
result is the `(nil, err)` return — no delivery channel is created. -/
theorem recognizeCfg_401 (w : World) (c : Client) (cfg : Config)
    (ds : String) (fps : List String) (sr : HydraRequest)
    (resp : HttpResponse)
    (hb : buildRequest w cfg fps = .ok sr)
    (hd : w.doRequest c.apiKey ds sr = .ok resp)
    (hs : resp.StatusCode = 401) :
    recognizeCfg w c cfg ds fps = .error invalidApiKeyMsg := by
  simp [recognizeCfg, hb, hd, handleResponse, hs]

/-- Witness for C7 on `sampleWorld401`. -/
theorem recognizeCfg_401_witness :
    recognizeCfg sampleWorld401 (NewClient "key") ⟨false⟩ "ds" ["a.png"] =
      .error invalidApiKeyMsg :=
  recognizeCfg_401 sampleWorld401 (NewClient "key") ⟨false⟩ "ds" ["a.png"]
    ⟨[⟨"image/png", "Zm9v"⟩], false⟩
    { StatusCode := 401, body := .ok "", decoded := .error "no body" }
    rfl rfl rfl

/-- C8: a non-200 status other than 401/404 fails the call with the error
embedding the status code and, when the body was readable, its text
(hydra.go:209-215); a 200 whose body fails to decode fails with the
internal `This should never happen and is not your fault` error
(hydra.go:218); each is an `Except.error`, so no channel is created. -/
theorem recognizeCfg_non200_spec (w : World) (c : Client) (cfg : Config)
    (ds : String) (fps : List String) (sr : HydraRequest)
    (resp : HttpResponse)
    (hb : buildRequest w cfg fps = .ok sr)
    (hd : w.doRequest c.apiKey ds sr = .ok resp) :
    (resp.StatusCode ≠ 200 → resp.StatusCode ≠ 401 → resp.StatusCode ≠ 404 →
      (∀ b, resp.body = .ok b →
        recognizeCfg w c cfg ds fps =
          .error (non200BodyMsg resp.StatusCode b)) ∧
      (∀ e, resp.body = .error e →
        recognizeCfg w c cfg ds fps =
          .error (non200NoBodyMsg resp.StatusCode))) ∧
    (resp.StatusCode = 200 → ∀ e, resp.decoded = .error e →
      recognizeCfg w c cfg ds fps = .error (decodeFailMsg e)) := by
  constructor
  · intro h200 h401 h404
    constructor
    · intro b hbody
      simp [recognizeCfg, hb, hd, handleResponse, h200, h401, h404, hbody]
    · intro e hbody
      simp [recognizeCfg, hb, hd, handleResponse, h200, h401, h404, hbody]
  · intro hs e hdec
    simp [recognizeCfg, hb, hd, handleResponse, hs, hdec]

/-- A world whose HTTP exchange returns 500 with a readable body. -/
def sampleWorld500 : World :=
  { readFile := fun _ => .ok [102, 111, 111]
    doRequest := fun _ _ _ => .ok
      { StatusCode := 500
        body := .ok "internal server error"
        decoded := .error "no decode" } }

/-- A world whose HTTP exchange returns 200 with an undecodable body. -/
def sampleWorldBadBody : World :=
  { readFile := fun _ => .ok [102, 111, 111]
    doRequest := fun _ _ _ => .ok
      { StatusCode := 200
        body := .ok "\x7b"
        decoded := .error "unexpected EOF" } }

/-- Witness for C8: a concrete 500 with readable body and a concrete 200
with an undecodable body. -/
theorem recognizeCfg_non200_spec_witness :
    recognizeCfg sampleWorld500 (NewClient "key") ⟨false⟩ "ds" ["a.png"] =
      .error (non200BodyMsg 500 "internal server error") ∧
    recognizeCfg sampleWorldBadBody (NewClient "key") ⟨false⟩ "ds" ["a.png"] =
      .error (decodeFailMsg "unexpected EOF") :=
  ⟨((recognizeCfg_non200_spec sampleWorld500 (NewClient "key") ⟨false⟩ "ds"
      ["a.png"] ⟨[⟨"image/png", "Zm9v"⟩], false⟩
      { StatusCode := 500, body := .ok "internal server error",
        decoded := .error "no decode" }
      rfl rfl).1 (by decide) (by decide) (by decide)).1
      "internal server error" rfl,
   (recognizeCfg_non200_spec sampleWorldBadBody (NewClient "key") ⟨false⟩ "ds"
      ["a.png"] ⟨[⟨"image/png", "Zm9v"⟩], false⟩
      { StatusCode := 200, body := .ok "\x7b",
        decoded := .error "unexpected EOF" }
      rfl rfl).2 rfl "unexpected EOF" rfl⟩

/-- C10: `Recognize` is definitionally `RecognizeCfg` with
`Config{DoFaster: false}` (hydra.go:131-139): same channel contents and
same error in every world. -/
theorem recognize_eq_recognizeCfg (w : World) (c : Client) (ds : String)
    (fps : List String) :
    recognize w c ds fps =
      recognizeCfg w c { DoFaster := false } ds fps := rfl
